import Mathlib

/-!
Shallow embedding of the smsf RPN stack library (crate `smsflib`).

The two stack representations and their operations are translated from
`src/smsflib/src/stack/implementations/{classic,dynamic_sized}` and the
trait defaults in `src/smsflib/src/stack/traits/basic_stack_operations.rs`.
Rust methods taking `&mut self` and returning `Result<R, StackError>` are
modelled as state-passing functions `Stack → Except StackError R × Stack`:
the second component is the state of the mutable borrow when the method
returns, so "the stack is unchanged on failure" is a real statement.
-/

set_option maxHeartbeats 1000000

/-- Error type of the stack library, enum `StackError` from `error.rs`
(`NotEnoughOperands { num_required, num_available }` and `Other`). -/
inductive StackError : Type where
  | NotEnoughOperands (num_required : Nat) (num_available : Nat)
  | Other
  deriving DecidableEq, Repr

/-- Classic HP-like stack with a fixed size of four registers X, Y, Z, T
(struct `ClassicStack<T>`). -/
structure ClassicStack (T : Type) where
  x : T
  y : T
  z : T
  t : T
  deriving DecidableEq, Repr

/-- Dynamic-sized RPL-like stack (struct `DynamicSizedStack<T>`), backed by a
`Vec<T>` whose last element is the top of the stack. -/
structure DynamicSizedStack (T : Type) where
  container : List T
  deriving DecidableEq, Repr

variable {T : Type}

/-- Constructor `ClassicStack::new(x, y, z, t)`. -/
def ClassicStack.new (x y z t : T) : ClassicStack T := ⟨x, y, z, t⟩

/-- `ClassicStack::rotate_up`: `mem::swap(x, y); mem::swap(x, z); mem::swap(x, t)`. -/
def ClassicStack.rotate_up (s : ClassicStack T) : Except StackError Unit × ClassicStack T :=
  let s1 : ClassicStack T := { s with x := s.y, y := s.x }
  let s2 : ClassicStack T := { s1 with x := s1.z, z := s1.x }
  let s3 : ClassicStack T := { s2 with x := s2.t, t := s2.x }
  (Except.ok (), s3)

/-- `ClassicStack::rotate_down`: `mem::swap(x, t); mem::swap(x, z); mem::swap(x, y)`. -/
def ClassicStack.rotate_down (s : ClassicStack T) : Except StackError Unit × ClassicStack T :=
  let s1 : ClassicStack T := { s with x := s.t, t := s.x }
  let s2 : ClassicStack T := { s1 with x := s1.z, z := s1.x }
  let s3 : ClassicStack T := { s2 with x := s2.y, y := s2.x }
  (Except.ok (), s3)

/-- `ClassicStack::swap`: `mem::swap(x, y)`. -/
def ClassicStack.swap (s : ClassicStack T) : Except StackError Unit × ClassicStack T :=
  (Except.ok (), { s with x := s.y, y := s.x })

/-- `ClassicStack::pop`:
`Ok(replace(&mut x, replace(&mut y, replace(&mut z, t.clone()))))`.
The nested `mem::replace` calls are unrolled innermost first. -/
def ClassicStack.pop (s : ClassicStack T) : Except StackError T × ClassicStack T :=
  let old_z := s.z
  let s1 : ClassicStack T := { s with z := s.t }
  let old_y := s1.y
  let s2 : ClassicStack T := { s1 with y := old_z }
  let old_x := s2.x
  let s3 : ClassicStack T := { s2 with x := old_y }
  (Except.ok old_x, s3)

/-- `ClassicStack::push`:
`self.t = replace(&mut z, replace(&mut y, replace(&mut x, value)))`. -/
def ClassicStack.push (s : ClassicStack T) (value : T) : Except StackError Unit × ClassicStack T :=
  let old_x := s.x
  let s1 : ClassicStack T := { s with x := value }
  let old_y := s1.y
  let s2 : ClassicStack T := { s1 with y := old_x }
  let old_z := s2.z
  let s3 : ClassicStack T := { s2 with z := old_y }
  (Except.ok (), { s3 with t := old_z })

/-- Trait default `drop`: `self.pop().and(Ok(()))`. -/
def ClassicStack.drop (s : ClassicStack T) : Except StackError Unit × ClassicStack T :=
  let r := s.pop
  (r.1.map (fun _ => ()), r.2)

/-- `ClassicStack::unary_fn_in_place`: `unary_fn(&mut self.x); Ok(())`. -/
def ClassicStack.unary_fn_in_place (unary_fn : T → T) (s : ClassicStack T) :
    Except StackError Unit × ClassicStack T :=
  (Except.ok (), { s with x := unary_fn s.x })

/-- `ClassicStack::binary_fn_in_place_first_arg`:
`binary_fn(&mut x, &y); self.y = replace(&mut z, t.clone()); Ok(())`.
The Lean function argument takes the old top (X) first and the old second (Y)
second, returning the value the closure stores into its `&mut` first argument. -/
def ClassicStack.binary_fn_in_place_first_arg (binary_fn : T → T → T) (s : ClassicStack T) :
    Except StackError Unit × ClassicStack T :=
  let s1 : ClassicStack T := { s with x := binary_fn s.x s.y }
  let old_z := s1.z
  let s2 : ClassicStack T := { s1 with z := s1.t }
  (Except.ok (), { s2 with y := old_z })

/-- `ClassicStack::binary_fn_in_place_second_arg`:
`binary_fn(&x, &mut y); self.x = replace(&mut y, replace(&mut z, t.clone())); Ok(())`.
The Lean function argument takes the old top (X) first and the old second (Y)
second, returning the value the closure stores into its `&mut` second argument. -/
def ClassicStack.binary_fn_in_place_second_arg (binary_fn : T → T → T) (s : ClassicStack T) :
    Except StackError Unit × ClassicStack T :=
  let s1 : ClassicStack T := { s with y := binary_fn s.x s.y }
  let old_z := s1.z
  let s2 : ClassicStack T := { s1 with z := s1.t }
  let old_y := s2.y
  let s3 : ClassicStack T := { s2 with y := old_z }
  (Except.ok (), { s3 with x := old_y })

/-- Derived operation `divide` from `traits/basic_math_operations.rs`:
`binary_fn_in_place_second_arg(|x, y| { *y /= x; })`. -/
def ClassicStack.divide [Div T] (s : ClassicStack T) : Except StackError Unit × ClassicStack T :=
  s.binary_fn_in_place_second_arg (fun x y => y / x)

/-- `DynamicSizedStack::len`: `self.container.len()`. -/
def DynamicSizedStack.len (s : DynamicSizedStack T) : Nat := s.container.length

/-- `DynamicSizedStack::is_empty`: `self.container.is_empty()`. -/
def DynamicSizedStack.is_empty (s : DynamicSizedStack T) : Bool := s.container.isEmpty

/-- `DynamicSizedStack::get(idx)`: index from the top,
`if idx < len { container.get(len - (idx + 1)) } else { None }`. -/
def DynamicSizedStack.get (s : DynamicSizedStack T) (idx : Nat) : Option T :=
  if idx < s.len then
    s.container[s.len - (idx + 1)]?
  else
    none

/-- Constructor `DynamicSizedStack::clone_from_slice`. -/
def DynamicSizedStack.clone_from_slice (source : List T) : DynamicSizedStack T := ⟨source⟩

/-- `Vec::rotate_left(1)`: the first element moves to the back. -/
def rotateLeftOne : List T → List T
  | [] => []
  | a :: rest => rest ++ [a]

/-- `Vec::rotate_right(1)`: the last element moves to the front. -/
def rotateRightOne (l : List T) : List T :=
  match l.getLast? with
  | none => []
  | some a => a :: l.dropLast

/-- `Vec::swap(i, j)` on a list; every call site passes in-bounds indices. -/
def listSwap (l : List T) (i j : Nat) : List T :=
  match l[i]?, l[j]? with
  | some a, some b => (l.set i b).set j a
  | _, _ => l

/-- Mutation of the last element of a vector through `last_mut` (a no-op on an
empty vector, which no guarded call site can reach). -/
def modifyTopInPlace (f : T → T) : List T → List T
  | [] => []
  | [a] => [f a]
  | a :: b :: rest => a :: modifyTopInPlace f (b :: rest)

/-- `DynamicSizedStack::rotate_up`:
`if !self.is_empty() { self.container.rotate_left(1); } Ok(())`. -/
def DynamicSizedStack.rotate_up (s : DynamicSizedStack T) :
    Except StackError Unit × DynamicSizedStack T :=
  if s.is_empty then (Except.ok (), s)
  else (Except.ok (), ⟨rotateLeftOne s.container⟩)

/-- `DynamicSizedStack::rotate_down`:
`if !self.is_empty() { self.container.rotate_right(1); } Ok(())`. -/
def DynamicSizedStack.rotate_down (s : DynamicSizedStack T) :
    Except StackError Unit × DynamicSizedStack T :=
  if s.is_empty then (Except.ok (), s)
  else (Except.ok (), ⟨rotateRightOne s.container⟩)

/-- `DynamicSizedStack::swap`: swap the last two elements when `len >= 2`,
otherwise `Err(NotEnoughOperands { num_required: 2, num_available: len })`. -/
def DynamicSizedStack.swap (s : DynamicSizedStack T) :
    Except StackError Unit × DynamicSizedStack T :=
  if 2 ≤ s.len then
    (Except.ok (), ⟨listSwap s.container (s.len - 2) (s.len - 1)⟩)
  else
    (Except.error (StackError.NotEnoughOperands 2 s.len), s)

/-- `DynamicSizedStack::pop`: `match self.container.pop()`, where `Vec::pop`
removes and returns the last element. -/
def DynamicSizedStack.pop (s : DynamicSizedStack T) :
    Except StackError T × DynamicSizedStack T :=
  match s.container.getLast? with
  | some e => (Except.ok e, ⟨s.container.dropLast⟩)
  | none => (Except.error (StackError.NotEnoughOperands 1 0), s)

/-- `DynamicSizedStack::push`: `self.container.push(value); Ok(())`. -/
def DynamicSizedStack.push (s : DynamicSizedStack T) (value : T) :
    Except StackError Unit × DynamicSizedStack T :=
  (Except.ok (), ⟨s.container ++ [value]⟩)

/-- `DynamicSizedStack::clear`: `self.container.clear(); Ok(())`. -/
def DynamicSizedStack.clear (_s : DynamicSizedStack T) :
    Except StackError Unit × DynamicSizedStack T :=
  (Except.ok (), (⟨[]⟩ : DynamicSizedStack T))

/-- Trait default `drop`: `self.pop().and(Ok(()))`. -/
def DynamicSizedStack.drop (s : DynamicSizedStack T) :
    Except StackError Unit × DynamicSizedStack T :=
  let r := s.pop
  (r.1.map (fun _ => ()), r.2)

/-- `DynamicSizedStack::unary_fn_in_place`: `match self.container.last_mut()`,
apply the function to the last element in place, or
`Err(NotEnoughOperands { num_required: 1, num_available: 0 })`. -/
def DynamicSizedStack.unary_fn_in_place (unary_fn : T → T) (s : DynamicSizedStack T) :
    Except StackError Unit × DynamicSizedStack T :=
  match s.container.getLast? with
  | some _ => (Except.ok (), ⟨modifyTopInPlace unary_fn s.container⟩)
  | none => (Except.error (StackError.NotEnoughOperands 1 0), s)

/-- `DynamicSizedStack::binary_fn_in_place_first_arg`: when `len >= 2`, remove
the penultimate element with `Vec::remove(len - 2)` and apply the function to
the last element in place with the removed element as read-only operand. The
Lean function argument takes the old top first and the old second (penultimate)
second, returning the value stored into the closure's `&mut` first argument. -/
def DynamicSizedStack.binary_fn_in_place_first_arg (binary_fn : T → T → T)
    (s : DynamicSizedStack T) : Except StackError Unit × DynamicSizedStack T :=
  if h : 2 ≤ s.len then
    have hlt : s.len - 2 < s.container.length := by
      have he : s.len = s.container.length := rfl
      omega
    let penultimate_item := s.container.get ⟨s.len - 2, hlt⟩
    (Except.ok (),
      ⟨modifyTopInPlace (fun a => binary_fn a penultimate_item)
        (s.container.eraseIdx (s.len - 2))⟩)
  else
    (Except.error (StackError.NotEnoughOperands 2 s.len), s)

/-- `DynamicSizedStack::binary_fn_in_place_second_arg`: when `len >= 2`, pop
the last element with `Vec::pop().unwrap()` and apply the function to the new
last element in place with the popped element as read-only operand. The Lean
function argument takes the old top first and the old second second, returning
the value stored into the closure's `&mut` second argument. -/
def DynamicSizedStack.binary_fn_in_place_second_arg (binary_fn : T → T → T)
    (s : DynamicSizedStack T) : Except StackError Unit × DynamicSizedStack T :=
  if h : 2 ≤ s.len then
    have hlt : s.len - 1 < s.container.length := by
      have he : s.len = s.container.length := rfl
      omega
    let ultimate_item := s.container.get ⟨s.len - 1, hlt⟩
    (Except.ok (),
      ⟨modifyTopInPlace (fun y => binary_fn ultimate_item y) s.container.dropLast⟩)
  else
    (Except.error (StackError.NotEnoughOperands 2 s.len), s)

/-- Derived operation `divide` from `traits/basic_math_operations.rs`:
`binary_fn_in_place_second_arg(|x, y| { *y /= x; })`. -/
def DynamicSizedStack.divide [Div T] (s : DynamicSizedStack T) :
    Except StackError Unit × DynamicSizedStack T :=
  s.binary_fn_in_place_second_arg (fun x y => y / x)

/-! Helper lemmas about the embedded operations. -/

theorem DynamicSizedStack.ext_container {s1 s2 : DynamicSizedStack T}
    (h : s1.container = s2.container) : s1 = s2 := by
  cases s1
  cases s2
  simpa using h

theorem len_mk (l : List T) : (⟨l⟩ : DynamicSizedStack T).len = l.length := rfl

theorem one_le_exists_concat {l : List T} (h : 1 ≤ l.length) : ∃ m a, l = m ++ [a] := by
  rcases l.eq_nil_or_concat with rfl | ⟨m, a, hma⟩
  · simp at h
  · exact ⟨m, a, by simpa using hma⟩

theorem two_le_exists_concat {l : List T} (h : 2 ≤ l.length) : ∃ m b a, l = m ++ [b, a] := by
  rcases @one_le_exists_concat T l (by omega) with ⟨m1, a, rfl⟩
  have h1 : 1 ≤ m1.length := by
    simp only [List.length_append, List.length_cons, List.length_nil] at h
    omega
  rcases one_le_exists_concat h1 with ⟨m, b, rfl⟩
  exact ⟨m, b, a, by simp⟩

theorem modifyTopInPlace_concat (f : T → T) (m : List T) (a : T) :
    modifyTopInPlace f (m ++ [a]) = m ++ [f a] := by
  induction m with
  | nil => rfl
  | cons c m ih =>
    cases m with
    | nil => rfl
    | cons b m' =>
      show c :: modifyTopInPlace f ((b :: m') ++ [a]) = c :: ((b :: m') ++ [f a])
      rw [ih]

theorem listSwap_cons (c : T) (l : List T) (i j : Nat) :
    listSwap (c :: l) (i + 1) (j + 1) = c :: listSwap l i j := by
  unfold listSwap
  cases h1 : l[i]? with
  | none => simp [h1]
  | some a =>
    cases h2 : l[j]? with
    | none => simp [h1, h2]
    | some b => simp [h1, h2]

theorem listSwap_last_two (m : List T) (b a : T) :
    listSwap (m ++ [b, a]) m.length (m.length + 1) = m ++ [a, b] := by
  induction m with
  | nil => rfl
  | cons c m ih =>
    show listSwap (c :: (m ++ [b, a])) (m.length + 1) (m.length + 1 + 1) = c :: (m ++ [a, b])
    rw [listSwap_cons, ih]

theorem eraseIdx_last_two (m : List T) (b a : T) :
    (m ++ [b, a]).eraseIdx m.length = m ++ [a] := by
  induction m with
  | nil => rfl
  | cons c m ih =>
    show c :: (m ++ [b, a]).eraseIdx m.length = c :: (m ++ [a])
    rw [ih]

theorem get_last_two_left (m : List T) (b a : T) (h : m.length < (m ++ [b, a]).length) :
    (m ++ [b, a]).get ⟨m.length, h⟩ = b := by
  induction m with
  | nil => rfl
  | cons c m ih => exact ih (by simp)

theorem get_last_two_right (m : List T) (b a : T) (h : m.length + 1 < (m ++ [b, a]).length) :
    (m ++ [b, a]).get ⟨m.length + 1, h⟩ = a := by
  induction m with
  | nil => rfl
  | cons c m ih => exact ih (by simp)

theorem list_get_val_eq (l : List T) (i j : Nat) (hij : i = j) (h : i < l.length)
    (h2 : j < l.length) : l.get ⟨i, h⟩ = l.get ⟨j, h2⟩ := by
  subst hij
  rfl

theorem get_mk_nil (idx : Nat) : (⟨[]⟩ : DynamicSizedStack T).get idx = none := by
  simp [DynamicSizedStack.get, DynamicSizedStack.len]

theorem get_concat_zero (m : List T) (a : T) :
    (⟨m ++ [a]⟩ : DynamicSizedStack T).get 0 = some a := by
  have hl : (m ++ [a]).length = m.length + 1 := by simp
  simp only [DynamicSizedStack.get, len_mk, hl]
  rw [if_pos (by omega)]
  have hidx : m.length + 1 - (0 + 1) = m.length := by omega
  rw [hidx, List.getElem?_concat_length]

theorem get_concat_succ (m : List T) (a : T) (i : Nat) :
    (⟨m ++ [a]⟩ : DynamicSizedStack T).get (i + 1) = (⟨m⟩ : DynamicSizedStack T).get i := by
  have hl : (m ++ [a]).length = m.length + 1 := by simp
  by_cases h : i < m.length
  · simp only [DynamicSizedStack.get, len_mk, hl]
    rw [if_pos (by omega), if_pos h]
    have hidx : m.length + 1 - (i + 1 + 1) = m.length - (i + 1) := by omega
    rw [hidx, List.getElem?_append]
    rw [if_pos (by omega)]
  · simp only [DynamicSizedStack.get, len_mk, hl]
    rw [if_neg (by omega), if_neg (by omega)]

theorem get_eq_reverse (l : List T) (idx : Nat) :
    (⟨l⟩ : DynamicSizedStack T).get idx = l.reverse[idx]? := by
  induction l using List.reverseRecOn generalizing idx with
  | nil => simp [get_mk_nil]
  | append_singleton m a ih =>
    cases idx with
    | zero => simp [get_concat_zero]
    | succ i =>
      rw [get_concat_succ, ih]
      simp

theorem pop_mk_nil : DynamicSizedStack.pop (⟨[]⟩ : DynamicSizedStack T) =
    (Except.error (StackError.NotEnoughOperands 1 0), ⟨[]⟩) := rfl

theorem pop_concat (m : List T) (a : T) :
    DynamicSizedStack.pop ⟨m ++ [a]⟩ = (Except.ok a, (⟨m⟩ : DynamicSizedStack T)) := by
  unfold DynamicSizedStack.pop
  rw [List.getLast?_concat]
  simp only [List.dropLast_concat]

theorem push_eq (s : DynamicSizedStack T) (v : T) :
    s.push v = (Except.ok (), ⟨s.container ++ [v]⟩) := rfl

theorem swap_lt {s : DynamicSizedStack T} (h : s.len < 2) :
    s.swap = (Except.error (StackError.NotEnoughOperands 2 s.len), s) := by
  unfold DynamicSizedStack.swap
  rw [if_neg (by omega)]

theorem swap_concat (m : List T) (b a : T) :
    DynamicSizedStack.swap ⟨m ++ [b, a]⟩ =
      (Except.ok (), (⟨m ++ [a, b]⟩ : DynamicSizedStack T)) := by
  have hlen : (⟨m ++ [b, a]⟩ : DynamicSizedStack T).len = m.length + 2 := by
    simp [DynamicSizedStack.len]
  unfold DynamicSizedStack.swap
  rw [if_pos (by omega)]
  have h1 : (⟨m ++ [b, a]⟩ : DynamicSizedStack T).len - 2 = m.length := by omega
  have h2 : (⟨m ++ [b, a]⟩ : DynamicSizedStack T).len - 1 = m.length + 1 := by omega
  rw [h1, h2, listSwap_last_two]

theorem unary_none (f : T → T) {s : DynamicSizedStack T} (h : s.container = []) :
    s.unary_fn_in_place f = (Except.error (StackError.NotEnoughOperands 1 0), s) := by
  unfold DynamicSizedStack.unary_fn_in_place
  rw [h]
  rfl

theorem unary_concat (f : T → T) (m : List T) (a : T) :
    DynamicSizedStack.unary_fn_in_place f ⟨m ++ [a]⟩ =
      (Except.ok (), (⟨m ++ [f a]⟩ : DynamicSizedStack T)) := by
  unfold DynamicSizedStack.unary_fn_in_place
  rw [List.getLast?_concat]
  simp only [modifyTopInPlace_concat]

theorem first_arg_lt (g : T → T → T) {s : DynamicSizedStack T} (h : s.len < 2) :
    s.binary_fn_in_place_first_arg g =
      (Except.error (StackError.NotEnoughOperands 2 s.len), s) := by
  unfold DynamicSizedStack.binary_fn_in_place_first_arg
  rw [dif_neg (by omega)]

theorem second_arg_lt (g : T → T → T) {s : DynamicSizedStack T} (h : s.len < 2) :
    s.binary_fn_in_place_second_arg g =
      (Except.error (StackError.NotEnoughOperands 2 s.len), s) := by
  unfold DynamicSizedStack.binary_fn_in_place_second_arg
  rw [dif_neg (by omega)]

theorem first_arg_concat (g : T → T → T) (m : List T) (b a : T) :
    DynamicSizedStack.binary_fn_in_place_first_arg g ⟨m ++ [b, a]⟩ =
      (Except.ok (), (⟨m ++ [g a b]⟩ : DynamicSizedStack T)) := by
  have hL : (m ++ [b, a]).length = m.length + 2 := by simp
  have hlen : (⟨m ++ [b, a]⟩ : DynamicSizedStack T).len = m.length + 2 := hL
  have hidx : (⟨m ++ [b, a]⟩ : DynamicSizedStack T).len - 2 = m.length := by omega
  unfold DynamicSizedStack.binary_fn_in_place_first_arg
  rw [dif_pos (by omega)]
  have hlt : (⟨m ++ [b, a]⟩ : DynamicSizedStack T).len - 2 < (m ++ [b, a]).length := by omega
  have h2 : m.length < (m ++ [b, a]).length := by omega
  have hP : (m ++ [b, a]).get ⟨(⟨m ++ [b, a]⟩ : DynamicSizedStack T).len - 2, hlt⟩ = b := by
    rw [list_get_val_eq (m ++ [b, a]) _ m.length hidx hlt h2]
    exact get_last_two_left m b a h2
  simp only [hP]
  have hE : (m ++ [b, a]).eraseIdx ((⟨m ++ [b, a]⟩ : DynamicSizedStack T).len - 2) =
      m ++ [a] := by
    rw [hidx]
    exact eraseIdx_last_two m b a
  rw [hE, modifyTopInPlace_concat]

theorem second_arg_concat (g : T → T → T) (m : List T) (b a : T) :
    DynamicSizedStack.binary_fn_in_place_second_arg g ⟨m ++ [b, a]⟩ =
      (Except.ok (), (⟨m ++ [g a b]⟩ : DynamicSizedStack T)) := by
  have hL : (m ++ [b, a]).length = m.length + 2 := by simp
  have hlen : (⟨m ++ [b, a]⟩ : DynamicSizedStack T).len = m.length + 2 := hL
  have hidx : (⟨m ++ [b, a]⟩ : DynamicSizedStack T).len - 1 = m.length + 1 := by omega
  unfold DynamicSizedStack.binary_fn_in_place_second_arg
  rw [dif_pos (by omega)]
  have hlt : (⟨m ++ [b, a]⟩ : DynamicSizedStack T).len - 1 < (m ++ [b, a]).length := by omega
  have h2 : m.length + 1 < (m ++ [b, a]).length := by omega
  have hP : (m ++ [b, a]).get ⟨(⟨m ++ [b, a]⟩ : DynamicSizedStack T).len - 1, hlt⟩ = a := by
    rw [list_get_val_eq (m ++ [b, a]) _ (m.length + 1) hidx hlt h2]
    exact get_last_two_right m b a h2
  simp only [hP]
  have hD : (m ++ [b, a]).dropLast = m ++ [b] := by
    have hsplit : m ++ [b, a] = (m ++ [b]) ++ [a] := by simp
    rw [hsplit, List.dropLast_concat]
  rw [hD, modifyTopInPlace_concat]

theorem rotate_up_mk_nil : DynamicSizedStack.rotate_up (⟨[]⟩ : DynamicSizedStack T) =
    (Except.ok (), ⟨[]⟩) := rfl

theorem rotate_up_cons (a : T) (rest : List T) :
    DynamicSizedStack.rotate_up ⟨a :: rest⟩ =
      (Except.ok (), (⟨rest ++ [a]⟩ : DynamicSizedStack T)) := by
  unfold DynamicSizedStack.rotate_up
  rw [if_neg (by simp [DynamicSizedStack.is_empty])]
  rfl

theorem rotate_down_mk_nil : DynamicSizedStack.rotate_down (⟨[]⟩ : DynamicSizedStack T) =
    (Except.ok (), ⟨[]⟩) := rfl

theorem rotate_down_concat (m : List T) (a : T) :
    DynamicSizedStack.rotate_down ⟨m ++ [a]⟩ =
      (Except.ok (), (⟨a :: m⟩ : DynamicSizedStack T)) := by
  unfold DynamicSizedStack.rotate_down rotateRightOne
  rw [if_neg (by simp [DynamicSizedStack.is_empty])]
  rw [List.getLast?_concat]
  simp only [List.dropLast_concat]

theorem classic_pop_eq (s : ClassicStack T) :
    s.pop = (Except.ok s.x, ⟨s.y, s.z, s.t, s.t⟩) := rfl

theorem classic_push_eq (s : ClassicStack T) (v : T) :
    s.push v = (Except.ok (), ⟨v, s.x, s.y, s.z⟩) := rfl

theorem classic_rotate_up_eq (s : ClassicStack T) :
    s.rotate_up = (Except.ok (), ⟨s.t, s.x, s.y, s.z⟩) := rfl

theorem classic_rotate_down_eq (s : ClassicStack T) :
    s.rotate_down = (Except.ok (), ⟨s.y, s.z, s.t, s.x⟩) := rfl

theorem classic_first_arg_eq (g : T → T → T) (s : ClassicStack T) :
    s.binary_fn_in_place_first_arg g = (Except.ok (), ⟨g s.x s.y, s.z, s.t, s.t⟩) := rfl

theorem classic_second_arg_eq (g : T → T → T) (s : ClassicStack T) :
    s.binary_fn_in_place_second_arg g = (Except.ok (), ⟨g s.x s.y, s.z, s.t, s.t⟩) := rfl

theorem pop_ok_of_one_le {s : DynamicSizedStack T} (h : 1 ≤ s.len) :
    ∃ a, (s.pop).1 = Except.ok a := by
  obtain ⟨l⟩ := s
  rcases @one_le_exists_concat T l h with ⟨m, a, rfl⟩
  exact ⟨a, by rw [pop_concat]⟩

theorem swap_ok_of_two_le {s : DynamicSizedStack T} (h : 2 ≤ s.len) :
    (s.swap).1 = Except.ok () := by
  obtain ⟨l⟩ := s
  rcases @two_le_exists_concat T l h with ⟨m, b, a, rfl⟩
  rw [swap_concat]

theorem unary_ok_of_one_le (f : T → T) {s : DynamicSizedStack T} (h : 1 ≤ s.len) :
    (s.unary_fn_in_place f).1 = Except.ok () := by
  obtain ⟨l⟩ := s
  rcases @one_le_exists_concat T l h with ⟨m, a, rfl⟩
  rw [unary_concat]

theorem first_arg_ok_of_two_le (g : T → T → T) {s : DynamicSizedStack T} (h : 2 ≤ s.len) :
    (s.binary_fn_in_place_first_arg g).1 = Except.ok () := by
  obtain ⟨l⟩ := s
  rcases @two_le_exists_concat T l h with ⟨m, b, a, rfl⟩
  rw [first_arg_concat]

theorem second_arg_ok_of_two_le (g : T → T → T) {s : DynamicSizedStack T} (h : 2 ≤ s.len) :
    (s.binary_fn_in_place_second_arg g).1 = Except.ok () := by
  obtain ⟨l⟩ := s
  rcases @two_le_exists_concat T l h with ⟨m, b, a, rfl⟩
  rw [second_arg_concat]

/-! The claims. -/

/-- C1: for every DynamicSizedStack, each fallible operation (pop, drop, swap,
unary_fn_in_place, binary_fn_in_place_first_arg, binary_fn_in_place_second_arg)
leaves the stack exactly in its pre-call state whenever it returns an error:
no partial mutation occurs on failure. -/
theorem c1_dynamic_no_partial_mutation (s : DynamicSizedStack T) (f : T → T)
    (g1 g2 : T → T → T) :
    (∀ e, (s.pop).1 = Except.error e → (s.pop).2 = s) ∧
    (∀ e, (DynamicSizedStack.drop s).1 = Except.error e → (DynamicSizedStack.drop s).2 = s) ∧
    (∀ e, (s.swap).1 = Except.error e → (s.swap).2 = s) ∧
    (∀ e, (s.unary_fn_in_place f).1 = Except.error e → (s.unary_fn_in_place f).2 = s) ∧
    (∀ e, (s.binary_fn_in_place_first_arg g1).1 = Except.error e →
      (s.binary_fn_in_place_first_arg g1).2 = s) ∧
    (∀ e, (s.binary_fn_in_place_second_arg g2).1 = Except.error e →
      (s.binary_fn_in_place_second_arg g2).2 = s) := by
  obtain ⟨l⟩ := s
  have hl : (⟨l⟩ : DynamicSizedStack T).len = l.length := rfl
  refine ⟨?_, ?_, ?_, ?_, ?_, ?_⟩ <;> intro e he
  · rcases l.eq_nil_or_concat with rfl | ⟨m, a, hma⟩
    · rfl
    · obtain rfl : l = m ++ [a] := by simpa using hma
      rw [pop_concat] at he
      simp at he
  · rcases l.eq_nil_or_concat with rfl | ⟨m, a, hma⟩
    · rfl
    · obtain rfl : l = m ++ [a] := by simpa using hma
      unfold DynamicSizedStack.drop at he
      rw [pop_concat] at he
      simp [Except.map] at he
  · by_cases h2 : (⟨l⟩ : DynamicSizedStack T).len < 2
    · rw [swap_lt h2]
    · rcases @two_le_exists_concat T l (by omega) with ⟨m, b, a, rfl⟩
      rw [swap_concat] at he
      simp at he
  · rcases l.eq_nil_or_concat with rfl | ⟨m, a, hma⟩
    · rfl
    · obtain rfl : l = m ++ [a] := by simpa using hma
      rw [unary_concat] at he
      simp at he
  · by_cases h2 : (⟨l⟩ : DynamicSizedStack T).len < 2
    · rw [first_arg_lt g1 h2]
    · rcases @two_le_exists_concat T l (by omega) with ⟨m, b, a, rfl⟩
      rw [first_arg_concat] at he
      simp at he
  · by_cases h2 : (⟨l⟩ : DynamicSizedStack T).len < 2
    · rw [second_arg_lt g2 h2]
    · rcases @two_le_exists_concat T l (by omega) with ⟨m, b, a, rfl⟩
      rw [second_arg_concat] at he
      simp at he

/-- C1 witness: on the empty dynamic stack, the failing pop and the failing
swap both leave the stack unchanged. -/
theorem c1_witness :
    ((⟨[]⟩ : DynamicSizedStack Int).pop).2 = ⟨[]⟩ ∧
    ((⟨[]⟩ : DynamicSizedStack Int).swap).2 = ⟨[]⟩ :=
  ⟨(c1_dynamic_no_partial_mutation ⟨[]⟩ id (fun a _ => a) (fun a _ => a)).1
      (StackError.NotEnoughOperands 1 0) rfl,
   (c1_dynamic_no_partial_mutation ⟨[]⟩ id (fun a _ => a) (fun a _ => a)).2.2.1
      (StackError.NotEnoughOperands 2 0) rfl⟩

/-- C2: on a DynamicSizedStack of length L, pop and drop fail with
NotEnoughOperands(1, 0) exactly when L = 0; swap and the two binary
applications fail with NotEnoughOperands(2, L) exactly when L < 2; and every
NotEnoughOperands(N, M) any operation reports satisfies M = pre-call length
and M < N. -/
theorem c2_not_enough_operands (s : DynamicSizedStack T) (f : T → T) (g1 g2 : T → T → T) :
    ((s.pop).1 = Except.error (StackError.NotEnoughOperands 1 0) ↔ s.len = 0) ∧
    ((DynamicSizedStack.drop s).1 = Except.error (StackError.NotEnoughOperands 1 0) ↔
      s.len = 0) ∧
    ((s.swap).1 = Except.error (StackError.NotEnoughOperands 2 s.len) ↔ s.len < 2) ∧
    ((s.binary_fn_in_place_first_arg g1).1 =
      Except.error (StackError.NotEnoughOperands 2 s.len) ↔ s.len < 2) ∧
    ((s.binary_fn_in_place_second_arg g2).1 =
      Except.error (StackError.NotEnoughOperands 2 s.len) ↔ s.len < 2) ∧
    (∀ N M, (s.pop).1 = Except.error (StackError.NotEnoughOperands N M) →
      M = s.len ∧ M < N) ∧
    (∀ N M, (DynamicSizedStack.drop s).1 = Except.error (StackError.NotEnoughOperands N M) →
      M = s.len ∧ M < N) ∧
    (∀ N M, (s.swap).1 = Except.error (StackError.NotEnoughOperands N M) →
      M = s.len ∧ M < N) ∧
    (∀ N M, (s.unary_fn_in_place f).1 = Except.error (StackError.NotEnoughOperands N M) →
      M = s.len ∧ M < N) ∧
    (∀ N M, (s.binary_fn_in_place_first_arg g1).1 =
      Except.error (StackError.NotEnoughOperands N M) → M = s.len ∧ M < N) ∧
    (∀ N M, (s.binary_fn_in_place_second_arg g2).1 =
      Except.error (StackError.NotEnoughOperands N M) → M = s.len ∧ M < N) := by
  obtain ⟨l⟩ := s
  have hl : (⟨l⟩ : DynamicSizedStack T).len = l.length := rfl
  refine ⟨?_, ?_, ?_, ?_, ?_, ?_, ?_, ?_, ?_, ?_, ?_⟩
  · rcases l.eq_nil_or_concat with rfl | ⟨m, a, hma⟩
    · exact ⟨fun _ => rfl, fun _ => rfl⟩
    · obtain rfl : l = m ++ [a] := by simpa using hma
      rw [pop_concat]
      simp [hl]
  · rcases l.eq_nil_or_concat with rfl | ⟨m, a, hma⟩
    · exact ⟨fun _ => rfl, fun _ => rfl⟩
    · obtain rfl : l = m ++ [a] := by simpa using hma
      unfold DynamicSizedStack.drop
      rw [pop_concat]
      simp [hl, Except.map]
  · by_cases h2 : (⟨l⟩ : DynamicSizedStack T).len < 2
    · rw [swap_lt h2]
      simp [h2]
    · rw [swap_ok_of_two_le (by omega)]
      simp [h2]
  · by_cases h2 : (⟨l⟩ : DynamicSizedStack T).len < 2
    · rw [first_arg_lt g1 h2]
      simp [h2]
    · rw [first_arg_ok_of_two_le g1 (by omega)]
      simp [h2]
  · by_cases h2 : (⟨l⟩ : DynamicSizedStack T).len < 2
    · rw [second_arg_lt g2 h2]
      simp [h2]
    · rw [second_arg_ok_of_two_le g2 (by omega)]
      simp [h2]
  · intro N M he
    rcases l.eq_nil_or_concat with rfl | ⟨m, a, hma⟩
    · have : (1 : Nat) = N ∧ (0 : Nat) = M := by
        rw [show ((⟨[]⟩ : DynamicSizedStack T).pop).1 =
          Except.error (StackError.NotEnoughOperands 1 0) from rfl] at he
        simpa using he
      simp [hl, ← this.1, ← this.2]
    · obtain rfl : l = m ++ [a] := by simpa using hma
      rw [pop_concat] at he
      simp at he
  · intro N M he
    rcases l.eq_nil_or_concat with rfl | ⟨m, a, hma⟩
    · have : (1 : Nat) = N ∧ (0 : Nat) = M := by
        rw [show (DynamicSizedStack.drop (⟨[]⟩ : DynamicSizedStack T)).1 =
          Except.error (StackError.NotEnoughOperands 1 0) from rfl] at he
        simpa using he
      simp [hl, ← this.1, ← this.2]
    · obtain rfl : l = m ++ [a] := by simpa using hma
      unfold DynamicSizedStack.drop at he
      rw [pop_concat] at he
      simp [Except.map] at he
  · intro N M he
    by_cases h2 : (⟨l⟩ : DynamicSizedStack T).len < 2
    · rw [swap_lt h2] at he
      have : (2 : Nat) = N ∧ (⟨l⟩ : DynamicSizedStack T).len = M := by simpa using he
      omega
    · rw [swap_ok_of_two_le (by omega)] at he
      simp at he
  · intro N M he
    rcases l.eq_nil_or_concat with rfl | ⟨m, a, hma⟩
    · have : (1 : Nat) = N ∧ (0 : Nat) = M := by
        rw [show ((⟨[]⟩ : DynamicSizedStack T).unary_fn_in_place f).1 =
          Except.error (StackError.NotEnoughOperands 1 0) from rfl] at he
        simpa using he
      simp [hl, ← this.1, ← this.2]
    · obtain rfl : l = m ++ [a] := by simpa using hma
      rw [unary_concat] at he
      simp at he
  · intro N M he
    by_cases h2 : (⟨l⟩ : DynamicSizedStack T).len < 2
    · rw [first_arg_lt g1 h2] at he
      have : (2 : Nat) = N ∧ (⟨l⟩ : DynamicSizedStack T).len = M := by simpa using he
      omega
    · rw [first_arg_ok_of_two_le g1 (by omega)] at he
      simp at he
  · intro N M he
    by_cases h2 : (⟨l⟩ : DynamicSizedStack T).len < 2
    · rw [second_arg_lt g2 h2] at he
      have : (2 : Nat) = N ∧ (⟨l⟩ : DynamicSizedStack T).len = M := by simpa using he
      omega
    · rw [second_arg_ok_of_two_le g2 (by omega)] at he
      simp at he

/-- C2 witness: on the empty stack pop reports NotEnoughOperands(1, 0), with
M equal to the pre-call length and M < N; a singleton stack makes swap report
NotEnoughOperands(2, 1). -/
theorem c2_witness :
    ((⟨[]⟩ : DynamicSizedStack Int).pop).1 =
      Except.error (StackError.NotEnoughOperands 1 0) ∧
    ((0 : Nat) = (⟨[]⟩ : DynamicSizedStack Int).len ∧ (0 : Nat) < 1) ∧
    ((⟨[5]⟩ : DynamicSizedStack Int).swap).1 =
      Except.error (StackError.NotEnoughOperands 2 (⟨[5]⟩ : DynamicSizedStack Int).len) :=
  ⟨(c2_not_enough_operands ⟨[]⟩ id (fun a _ => a) (fun a _ => a)).1.mpr rfl,
   (c2_not_enough_operands (⟨[]⟩ : DynamicSizedStack Int) id (fun a _ => a)
      (fun a _ => a)).2.2.2.2.2.1 1 0 rfl,
   (c2_not_enough_operands (⟨[5]⟩ : DynamicSizedStack Int) id (fun a _ => a)
      (fun a _ => a)).2.2.1.mpr (by decide)⟩

/-- C3: ClassicStack pop always succeeds, returns the old X, and leaves the
registers (y, z, t, t) with T itself unchanged; drop yields the same final
state returning Ok(()); ClassicStack::new(1,2,3,4) followed by drop() yields
registers (2,3,4,4). -/
theorem c3_classic_pop_drop (s : ClassicStack T) :
    s.pop = (Except.ok s.x, ⟨s.y, s.z, s.t, s.t⟩) ∧
    ClassicStack.drop s = (Except.ok (), ⟨s.y, s.z, s.t, s.t⟩) ∧
    ClassicStack.drop (ClassicStack.new (1 : Int) 2 3 4) =
      (Except.ok (), ClassicStack.new 2 3 4 4) :=
  ⟨rfl, rfl, rfl⟩

theorem getElem_opt_isSome_iff (l : List T) (i : Nat) :
    l[i]?.isSome = true ↔ i < l.length := by
  constructor
  · intro h
    by_contra hc
    rw [List.getElem?_eq_none (by omega)] at h
    simp at h
  · intro h
    rcases List.getElem?_eq_some.mpr ⟨h, rfl⟩ with h2
    rw [h2]
    rfl

theorem rotate_up_ok (d : DynamicSizedStack T) : (d.rotate_up).1 = Except.ok () := by
  unfold DynamicSizedStack.rotate_up
  split <;> rfl

theorem rotate_down_ok (d : DynamicSizedStack T) : (d.rotate_down).1 = Except.ok () := by
  unfold DynamicSizedStack.rotate_down
  split <;> rfl

theorem rotate_up_state_container (d : DynamicSizedStack T) :
    ((d.rotate_up).2).container = d.container.rotate 1 := by
  obtain ⟨l⟩ := d
  cases l with
  | nil => rfl
  | cons a rest =>
    rw [rotate_up_cons]
    show rest ++ [a] = (a :: rest).rotate 1
    rw [show (1 : Nat) = 0 + 1 from rfl, List.rotate_cons_succ, List.rotate_zero]

theorem iterate_rotate_up_container (d : DynamicSizedStack T) (n : Nat) :
    ((fun e : DynamicSizedStack T => (e.rotate_up).2)^[n] d).container =
      d.container.rotate n := by
  induction n with
  | zero => simp
  | succ k ih =>
    rw [Function.iterate_succ_apply']
    show ((((fun e : DynamicSizedStack T =>
      (e.rotate_up).2)^[k] d).rotate_up).2).container = d.container.rotate (k + 1)
    rw [rotate_up_state_container, ih, List.rotate_rotate]

theorem rotate_up_down (d : DynamicSizedStack T) : ((d.rotate_up).2.rotate_down).2 = d := by
  obtain ⟨l⟩ := d
  cases l with
  | nil => rfl
  | cons a rest =>
    rw [rotate_up_cons]
    show (DynamicSizedStack.rotate_down ⟨rest ++ [a]⟩).2 = ⟨a :: rest⟩
    rw [rotate_down_concat]

theorem rotate_down_up (d : DynamicSizedStack T) : ((d.rotate_down).2.rotate_up).2 = d := by
  obtain ⟨l⟩ := d
  rcases l.eq_nil_or_concat with rfl | ⟨m, a, hma⟩
  · rfl
  · obtain rfl : l = m ++ [a] := by simpa using hma
    rw [rotate_down_concat]
    show (DynamicSizedStack.rotate_up ⟨a :: m⟩).2 = ⟨m ++ [a]⟩
    rw [rotate_up_cons]

/-- C4: divide computes old_second / old_top (most-recently-pushed value is the
divisor) via the keep-second collapse: a ClassicStack always ends with
(y/x, z, t, t); a DynamicSizedStack with at least 2 elements succeeds, shrinks
by one, puts the quotient on top and keeps all lower elements; with fewer than
2 elements it fails with NotEnoughOperands(2, len) and changes nothing. -/
theorem c4_divide_semantics [Div T] (s : ClassicStack T) (d : DynamicSizedStack T) :
    s.divide = (Except.ok (), ⟨s.y / s.x, s.z, s.t, s.t⟩) ∧
    (2 ≤ d.len →
      (d.divide).1 = Except.ok () ∧
      (d.divide).2.len = d.len - 1 ∧
      (∀ a b, d.get 0 = some a → d.get 1 = some b →
        (d.divide).2.get 0 = some (b / a)) ∧
      (∀ i, 1 ≤ i → (d.divide).2.get i = d.get (i + 1))) ∧
    (d.len < 2 → d.divide = (Except.error (StackError.NotEnoughOperands 2 d.len), d)) := by
  refine ⟨rfl, ?_, ?_⟩
  · intro h2
    obtain ⟨l⟩ := d
    rcases @two_le_exists_concat T l h2 with ⟨m, b2, a2, rfl⟩
    have hsplit : m ++ [b2, a2] = (m ++ [b2]) ++ [a2] := by simp
    have hdiv : DynamicSizedStack.divide ⟨m ++ [b2, a2]⟩ =
        (Except.ok (), (⟨m ++ [b2 / a2]⟩ : DynamicSizedStack T)) := by
      unfold DynamicSizedStack.divide
      exact second_arg_concat (fun x y => y / x) m b2 a2
    refine ⟨?_, ?_, ?_, ?_⟩
    · rw [hdiv]
    · rw [hdiv]
      show (m ++ [b2 / a2]).length = (⟨m ++ [b2, a2]⟩ : DynamicSizedStack T).len - 1
      simp only [DynamicSizedStack.len, List.length_append, List.length_cons,
        List.length_nil]
      omega
    · intro a b ha hb
      rw [hsplit, get_concat_zero] at ha
      rw [hsplit, show (1 : Nat) = 0 + 1 from rfl, get_concat_succ, get_concat_zero] at hb
      have ha2 : a2 = a := by injection ha
      have hb2 : b2 = b := by injection hb
      rw [hdiv, ← ha2, ← hb2]
      exact get_concat_zero m (b2 / a2)
    · intro i hi
      obtain ⟨j, rfl⟩ : ∃ j, i = j + 1 := ⟨i - 1, by omega⟩
      rw [hdiv]
      show (⟨m ++ [b2 / a2]⟩ : DynamicSizedStack T).get (j + 1) =
        (⟨m ++ [b2, a2]⟩ : DynamicSizedStack T).get (j + 1 + 1)
      rw [get_concat_succ, hsplit, get_concat_succ, get_concat_succ]
  · intro hlt
    unfold DynamicSizedStack.divide
    exact second_arg_lt (fun x y => y / x) hlt

/-- C4 witness: on the stack [7, 6, 2] (top = 2) divide leaves 6 / 2 = 3 on
top; on the singleton stack [5] divide reports NotEnoughOperands(2, 1). -/
theorem c4_witness :
    ((⟨[7, 6, 2]⟩ : DynamicSizedStack Int).divide).2.get 0 = some 3 ∧
    ((⟨[5]⟩ : DynamicSizedStack Int).divide).1 =
      Except.error (StackError.NotEnoughOperands 2 1) :=
  ⟨((c4_divide_semantics (ClassicStack.new 1 2 3 4) ⟨[7, 6, 2]⟩).2.1
      (by decide)).2.2.1 2 6 rfl rfl,
   congrArg Prod.fst ((c4_divide_semantics (ClassicStack.new 1 2 3 4)
      (⟨[5]⟩ : DynamicSizedStack Int)).2.2 (by decide))⟩

/-- C5 counterexample: on ClassicStack::new(1,2,3,4), push(10) followed by
pop() does not leave every other position unchanged: the T register ends
holding 3, not its pre-push value 4 (push discards the old T). -/
theorem c5_counterexample :
    ¬ ((((ClassicStack.new (1 : Int) 2 3 4).push 10).2.pop).2.t =
      (ClassicStack.new (1 : Int) 2 3 4).t) := by
  decide

/-- C5 (amended): push(v) immediately followed by pop() succeeds and returns v
for both representations; a DynamicSizedStack is left exactly in its pre-push
state; a ClassicStack regains its pre-push X, Y and Z, while T ends holding the
pre-push Z value (push discarded the old T, which pop cannot restore). -/
theorem c5_push_pop (s : ClassicStack T) (v : T) (d : DynamicSizedStack T) (w : T) :
    ((s.push v).2.pop) = (Except.ok v, ⟨s.x, s.y, s.z, s.z⟩) ∧
    ((d.push w).2.pop) = (Except.ok w, d) := by
  constructor
  · rfl
  · show DynamicSizedStack.pop ⟨d.container ++ [w]⟩ = (Except.ok w, d)
    rw [pop_concat]

/-- C6: rotate_up applied N times restores the original stack contents (N = 4
for every ClassicStack, N = length for every DynamicSizedStack); on a
DynamicSizedStack of length 0 or 1 a single rotate_up or rotate_down succeeds
and is a no-op. -/
theorem c6_rotate_up_iterations (s : ClassicStack T) (d : DynamicSizedStack T) :
    (fun c : ClassicStack T => (c.rotate_up).2)^[4] s = s ∧
    (fun e : DynamicSizedStack T => (e.rotate_up).2)^[d.len] d = d ∧
    (d.len ≤ 1 →
      (d.rotate_up).2 = d ∧ (d.rotate_down).2 = d ∧
      (d.rotate_up).1 = Except.ok () ∧ (d.rotate_down).1 = Except.ok ()) := by
  refine ⟨rfl, ?_, ?_⟩
  · apply DynamicSizedStack.ext_container
    rw [iterate_rotate_up_container]
    exact List.rotate_length d.container
  · intro h1
    obtain ⟨l⟩ := d
    have hl : (⟨l⟩ : DynamicSizedStack T).len = l.length := rfl
    rcases l.eq_nil_or_concat with rfl | ⟨m, a, hma⟩
    · exact ⟨rfl, rfl, rotate_up_ok _, rotate_down_ok _⟩
    · obtain rfl : l = m ++ [a] := by simpa using hma
      have hm : m = [] := by
        rw [hl] at h1
        simp only [List.length_append, List.length_cons, List.length_nil] at h1
        exact List.length_eq_zero.mp (by omega)
      subst hm
      exact ⟨rfl, rfl, rotate_up_ok _, rotate_down_ok _⟩

/-- C6 witness: on the singleton stack [9] both rotations are successful
no-ops. -/
theorem c6_witness :
    ((⟨[9]⟩ : DynamicSizedStack Int).rotate_up).2 = ⟨[9]⟩ ∧
    ((⟨[9]⟩ : DynamicSizedStack Int).rotate_down).2 = ⟨[9]⟩ :=
  ⟨((c6_rotate_up_iterations (ClassicStack.new 1 2 3 4) ⟨[9]⟩).2.2 (by decide)).1,
   ((c6_rotate_up_iterations (ClassicStack.new 1 2 3 4) ⟨[9]⟩).2.2 (by decide)).2.1⟩

/-- C7: rotate_down is the exact inverse of rotate_up in both orders, for both
representations, and both rotations always succeed. -/
theorem c7_rotate_down_inverse (s : ClassicStack T) (d : DynamicSizedStack T) :
    ((s.rotate_up).2.rotate_down).2 = s ∧
    ((s.rotate_down).2.rotate_up).2 = s ∧
    (s.rotate_up).1 = Except.ok () ∧
    (s.rotate_down).1 = Except.ok () ∧
    ((d.rotate_up).2.rotate_down).2 = d ∧
    ((d.rotate_down).2.rotate_up).2 = d ∧
    (d.rotate_up).1 = Except.ok () ∧
    (d.rotate_down).1 = Except.ok () :=
  ⟨rfl, rfl, rfl, rfl, rotate_up_down d, rotate_down_up d,
   rotate_up_ok d, rotate_down_ok d⟩

/-- C8: unary_fn_in_place applies the function to the top element only: the
shape is unchanged and every deeper position keeps its value; unconditional
and infallible on ClassicStack, and under non-emptiness on DynamicSizedStack. -/
theorem c8_unary_frame (f : T → T) (s : ClassicStack T) (d : DynamicSizedStack T) :
    s.unary_fn_in_place f = (Except.ok (), ⟨f s.x, s.y, s.z, s.t⟩) ∧
    (1 ≤ d.len →
      (d.unary_fn_in_place f).1 = Except.ok () ∧
      (d.unary_fn_in_place f).2.len = d.len ∧
      (∀ a, d.get 0 = some a → (d.unary_fn_in_place f).2.get 0 = some (f a)) ∧
      (∀ i, 1 ≤ i → (d.unary_fn_in_place f).2.get i = d.get i)) := by
  refine ⟨rfl, ?_⟩
  intro h1
  obtain ⟨l⟩ := d
  rcases @one_le_exists_concat T l h1 with ⟨m, a2, rfl⟩
  have hu := unary_concat f m a2
  refine ⟨?_, ?_, ?_, ?_⟩
  · rw [hu]
  · rw [hu]
    show (m ++ [f a2]).length = (⟨m ++ [a2]⟩ : DynamicSizedStack T).len
    simp only [DynamicSizedStack.len, List.length_append, List.length_cons,
      List.length_nil]
  · intro a ha
    rw [get_concat_zero] at ha
    have ha2 : a2 = a := by injection ha
    rw [hu, ← ha2]
    exact get_concat_zero m (f a2)
  · intro i hi
    obtain ⟨j, rfl⟩ : ∃ j, i = j + 1 := ⟨i - 1, by omega⟩
    rw [hu, get_concat_succ, get_concat_succ]

/-- C8 witness: squaring the top of [4, 5] gives [4, 25]: position 0 becomes
25 and position 1 keeps its value. -/
theorem c8_witness :
    ((⟨[4, 5]⟩ : DynamicSizedStack Int).unary_fn_in_place (fun a => a * a)).2.get 0 =
      some 25 ∧
    ((⟨[4, 5]⟩ : DynamicSizedStack Int).unary_fn_in_place (fun a => a * a)).2.get 1 =
      (⟨[4, 5]⟩ : DynamicSizedStack Int).get 1 :=
  ⟨((c8_unary_frame (fun a => a * a) (ClassicStack.new 1 2 3 4) ⟨[4, 5]⟩).2
      (by decide)).2.2.1 5 rfl,
   ((c8_unary_frame (fun a => a * a) (ClassicStack.new 1 2 3 4) ⟨[4, 5]⟩).2
      (by decide)).2.2.2 1 (by decide)⟩

/-- C9: the two binary application variants perform the identical stack
collapse and, fed the same abstract function of (old_top, old_second), produce
identical final stacks: on ClassicStack both end with (result, z, t, t); on
DynamicSizedStack both shrink by one, put the result on top and keep the lower
elements. -/
theorem c9_binary_variants_equivalent (g : T → T → T) (s : ClassicStack T)
    (d : DynamicSizedStack T) :
    s.binary_fn_in_place_first_arg g = s.binary_fn_in_place_second_arg g ∧
    s.binary_fn_in_place_first_arg g = (Except.ok (), ⟨g s.x s.y, s.z, s.t, s.t⟩) ∧
    d.binary_fn_in_place_first_arg g = d.binary_fn_in_place_second_arg g ∧
    (2 ≤ d.len →
      (d.binary_fn_in_place_first_arg g).1 = Except.ok () ∧
      (d.binary_fn_in_place_first_arg g).2.len = d.len - 1 ∧
      (∀ a b, d.get 0 = some a → d.get 1 = some b →
        (d.binary_fn_in_place_first_arg g).2.get 0 = some (g a b)) ∧
      (∀ i, 1 ≤ i → (d.binary_fn_in_place_first_arg g).2.get i = d.get (i + 1))) := by
  refine ⟨rfl, rfl, ?_, ?_⟩
  · by_cases h2 : 2 ≤ d.len
    · obtain ⟨l⟩ := d
      rcases @two_le_exists_concat T l h2 with ⟨m, b, a, rfl⟩
      rw [first_arg_concat, second_arg_concat]
    · rw [first_arg_lt g (by omega), second_arg_lt g (by omega)]
  · intro h2
    obtain ⟨l⟩ := d
    rcases @two_le_exists_concat T l h2 with ⟨m, b2, a2, rfl⟩
    have hsplit : m ++ [b2, a2] = (m ++ [b2]) ++ [a2] := by simp
    have hf := first_arg_concat g m b2 a2
    refine ⟨?_, ?_, ?_, ?_⟩
    · rw [hf]
    · rw [hf]
      show (m ++ [g a2 b2]).length = (⟨m ++ [b2, a2]⟩ : DynamicSizedStack T).len - 1
      simp only [DynamicSizedStack.len, List.length_append, List.length_cons,
        List.length_nil]
      omega
    · intro a b ha hb
      rw [hsplit, get_concat_zero] at ha
      rw [hsplit, show (1 : Nat) = 0 + 1 from rfl, get_concat_succ, get_concat_zero] at hb
      have ha2 : a2 = a := by injection ha
      have hb2 : b2 = b := by injection hb
      rw [hf, ← ha2, ← hb2]
      exact get_concat_zero m (g a2 b2)
    · intro i hi
      obtain ⟨j, rfl⟩ : ∃ j, i = j + 1 := ⟨i - 1, by omega⟩
      rw [hf]
      show (⟨m ++ [g a2 b2]⟩ : DynamicSizedStack T).get (j + 1) =
        (⟨m ++ [b2, a2]⟩ : DynamicSizedStack T).get (j + 1 + 1)
      rw [get_concat_succ, hsplit, get_concat_succ, get_concat_succ]

/-- C9 witness: on [7, 2, 3] (top = 3, second = 2) with subtraction of
(old_top, old_second), the first-arg variant leaves 3 - 2 = 1 on top of a
stack of length 2, and agrees with the second-arg variant. -/
theorem c9_witness :
    ((⟨[7, 2, 3]⟩ : DynamicSizedStack Int).binary_fn_in_place_first_arg
      (fun a b => a - b)).2.get 0 = some 1 ∧
    ((⟨[7, 2, 3]⟩ : DynamicSizedStack Int).binary_fn_in_place_first_arg
      (fun a b => a - b)).2.len = 2 :=
  ⟨((c9_binary_variants_equivalent (fun a b => a - b) (ClassicStack.new 1 2 3 4)
      ⟨[7, 2, 3]⟩).2.2.2 (by decide)).2.2.1 3 2 rfl rfl,
   ((c9_binary_variants_equivalent (fun a b => a - b) (ClassicStack.new 1 2 3 4)
      ⟨[7, 2, 3]⟩).2.2.2 (by decide)).2.1⟩

/-- C10: get(idx) is the element at depth idx counted from the top (index idx
of the reversed container, so get(0) is the most recently pushed element),
Some exactly when idx < len and None otherwise; get is total and pure. -/
theorem c10_get_total_read (s : DynamicSizedStack T) (idx : Nat) (v : T) :
    s.get idx = s.container.reverse[idx]? ∧
    ((s.get idx).isSome ↔ idx < s.len) ∧
    (s.push v).2.get 0 = some v := by
  obtain ⟨l⟩ := s
  refine ⟨get_eq_reverse l idx, ?_, ?_⟩
  · rw [get_eq_reverse]
    rw [show (⟨l⟩ : DynamicSizedStack T).len = l.length from rfl]
    rw [show (idx < l.length) = (idx < l.reverse.length) by rw [List.length_reverse]]
    exact getElem_opt_isSome_iff l.reverse idx
  · show DynamicSizedStack.get ⟨l ++ [v]⟩ 0 = some v
    exact get_concat_zero l v

example :
    ((DynamicSizedStack.clone_from_slice ([6, 5, 4, 3, 2, 1] : List Int)).rotate_up).2 =
      ⟨[5, 4, 3, 2, 1, 6]⟩ := by
  rfl

example :
    ((DynamicSizedStack.clone_from_slice ([3, 2, 10] : List Int)).binary_fn_in_place_first_arg
      (fun a b => a * b)).2 = ⟨[3, 20]⟩ := by
  rfl

example :
    ((DynamicSizedStack.clone_from_slice ([3, 20, 10] : List Int)).divide).2 = ⟨[3, 2]⟩ := by
  rfl

example :
    ((ClassicStack.new (1 : Int) 2 3 4).pop) = (Except.ok 1, ClassicStack.new 2 3 4 4) := by
  rfl

example :
    ((DynamicSizedStack.clone_from_slice ([4, 3, 2, 1] : List Int)).swap).2 =
      ⟨[4, 3, 1, 2]⟩ := by
  rfl

example : (DynamicSizedStack.clone_from_slice ([1, 2, 3] : List Int)).get 0 = some 3 := by
  rfl
